import Mathlib

/-!
Verification of the client-side helpers of the Object-Detection notebook
collection against its natural-language specification.

The notebooks orchestrate a managed ML platform; everything algorithmic that
they author locally is small pure postprocessing: a libsvm writer, a JSON-lines
writer, a confusion-matrix tally, a bounding-box geometry computation, status
polling loops, status-check error handling, batch slicing, an S3 partition
uploader and a label-stripping rewrite.  Each of those is embedded below as a
pure Lean function translated from the notebook source:

* Python strings stay `String`; the numeric payloads the notebooks format into
  strings are taken in already-rendered form (`String`), since the claims are
  about line/field structure, not float rendering.
* Python floats are modelled as `ℚ`.
* Python `int(x)` (truncation toward zero) is `pytrunc`.
* Python slices `l[a:b]` (with clamping) are `pySlice`.
* Writing to a binary file object is modelled as appending the written chunk
  to a `List String` of chunks (each chunk standing for its UTF-8 bytes).
-/

/-- Python `int(x)`: truncation toward zero. -/
def pytrunc (q : ℚ) : ℤ := if 0 ≤ q then ⌊q⌋ else ⌈q⌉

/-- Python `l[a:b]` for `0 ≤ a ≤ b`: elements from position `a` up to (not
including) position `b`, clamped to the list's length. -/
def pySlice {α : Type} (l : List α) (a b : ℕ) : List α := (l.take b).drop a

/-! ## `to_libsvm` (xgboost_mnist notebook)

```python
def to_libsvm(f, labels, values):
     f.write(bytes('\n'.join(
         ['{} {}'.format(label, ' '.join(['{}:{}'.format(i + 1, el)
              for i, el in enumerate(vec)])) for label, vec in
          zip(labels, values)]), 'utf-8'))
     return f
```
-/

/-- One libsvm line as the source builds it: the label, a space, then the
`enumerate`-numbered `index:value` tokens joined by single spaces. -/
def libsvmLine (label : String) (vec : List String) : String :=
  label ++ " " ++
    String.intercalate " "
      (vec.enum.map (fun ie => toString (ie.1 + 1) ++ ":" ++ ie.2))

/-- `to_libsvm f labels values`: writes the newline-joined lines to the file
`f` (one chunk appended to the list of written chunks) and returns the file. -/
def to_libsvm (f : List String) (labels : List String)
    (values : List (List String)) : List String :=
  f ++ [String.intercalate "\n"
          ((labels.zip values).map (fun lv => libsvmLine lv.1 lv.2))]

/-! Spec-side description of the same format, written from the claim's words:
one line per (label, vec) pair in input order, each line the label followed by
space-separated `index:value` pairs whose indices count up from 1 in the order
of `vec`; lines joined by a single newline, no trailing newline. -/

/-- Spec-side: `index:value` tokens for `vec`, indices counting up from `i`. -/
def libsvmTokensSpec : ℕ → List String → List String
  | _, [] => []
  | i, x :: xs => (toString i ++ ":" ++ x) :: libsvmTokensSpec (i + 1) xs

/-- Spec-side: the whole written string, one line per pair, indices from 1,
joined by single newlines with no trailing newline. -/
def libsvmFileSpec (labels : List String) (values : List (List String)) :
    String :=
  String.intercalate "\n"
    (List.zipWith
      (fun label vec =>
        label ++ " " ++ String.intercalate " " (libsvmTokensSpec 1 vec))
      labels values)

theorem libsvmTokensSpec_eq_enumFrom (vec : List String) :
    ∀ n : ℕ,
      (vec.enumFrom n).map (fun ie => toString (ie.1 + 1) ++ ":" ++ ie.2) =
        libsvmTokensSpec (n + 1) vec := by
  induction vec with
  | nil => intro n; rfl
  | cons x xs ih =>
      intro n
      simp only [List.enumFrom, List.map, libsvmTokensSpec]
      rw [ih (n + 1)]

theorem libsvmLine_eq_spec (label : String) (vec : List String) :
    libsvmLine label vec =
      label ++ " " ++ String.intercalate " " (libsvmTokensSpec 1 vec) := by
  unfold libsvmLine
  rw [List.enum, libsvmTokensSpec_eq_enumFrom]

/-- **C3.** For equal-length `labels` and `values`, `to_libsvm f labels values`
writes to `f` (as a single UTF-8 chunk) exactly the spec-side string: one line
per `(label, vec)` pair in input order, each line the label followed by
space-separated `index:value` pairs with indices starting at 1 in the order of
`vec`, lines joined by a single newline and no trailing newline — and the
function returns the file it wrote to. -/
theorem libsvm_lines_eq (labels : List String) (values : List (List String)) :
    (List.zipWith Prod.mk labels values).map (fun lv => libsvmLine lv.1 lv.2) =
      List.zipWith
        (fun label vec =>
          label ++ " " ++ String.intercalate " " (libsvmTokensSpec 1 vec))
        labels values := by
  induction labels generalizing values with
  | nil => cases values <;> rfl
  | cons l ls ih =>
      cases values with
      | nil => rfl
      | cons v vs =>
          simp only [List.zipWith, List.map]
          rw [libsvmLine_eq_spec l v, ih vs]

theorem to_libsvm_spec (f : List String) (labels : List String)
    (values : List (List String)) (h : labels.length = values.length) :
    to_libsvm f labels values = f ++ [libsvmFileSpec labels values] := by
  unfold to_libsvm libsvmFileSpec
  rw [List.zip, libsvm_lines_eq]

theorem to_libsvm_spec_witness :
    (["lbl"] : List String).length = ([["a", "b"]] : List (List String)).length
      ∧ to_libsvm [] ["lbl"] [["a", "b"]] = [] ++ [libsvmFileSpec ["lbl"] [["a", "b"]]] :=
  ⟨rfl, to_libsvm_spec [] ["lbl"] [["a", "b"]] rfl⟩

/-! ## `series_to_obj` / `series_to_jsonline` (DeepAR section,
Image-classification-multilabel-lst notebook)

```python
def series_to_obj(ts, cat=None):
    obj = {"start": str(ts.index[0]), "target": list(ts)}
    if cat is not None:
        obj["cat"] = cat
    return obj

def series_to_jsonline(ts, cat=None):
    return json.dumps(series_to_obj(ts, cat))
```

and the writing loop

```python
with open(FILE_TRAIN, "wb") as f:
    for ts in time_series_training:
        f.write(series_to_jsonline(ts).encode(encoding))
        f.write("\n".encode(encoding))
```
-/

/-- JSON values as the notebooks build them. -/
inductive JVal : Type
  | jstr (s : String)
  | jnum (q : ℚ)
  | jarr (xs : List JVal)
  | jobj (fields : List (String × JVal))

mutual

/-- `json.dumps` with its default separators `", "` and `": "`; object fields
are emitted in insertion order.  Number rendering is abstracted by `toString`
on `ℚ` (the claims are about object structure, not decimal formatting), and
the strings in play contain no characters needing escapes. -/
def jdump : JVal → String
  | .jstr s => "\x22" ++ s ++ "\x22"
  | .jnum q => toString q
  | .jarr xs => "[" ++ String.intercalate ", " (jdumpList xs) ++ "]"
  | .jobj fields => "\x7b" ++ String.intercalate ", " (jdumpFields fields) ++ "\x7d"

/-- The rendered elements of a JSON array. -/
def jdumpList : List JVal → List String
  | [] => []
  | x :: xs => jdump x :: jdumpList xs

/-- The rendered `"key": value` members of a JSON object. -/
def jdumpFields : List (String × JVal) → List String
  | [] => []
  | (k, v) :: rest => ("\x22" ++ k ++ "\x22: " ++ jdump v) :: jdumpFields rest

end

/-- A `pandas.Series` as the DeepAR cells use it: `ts.index[k]` is taken in its
`str`-rendered form, `list(ts)` is the list of values. -/
structure TSeries : Type where
  index : List String
  values : List ℚ

def series_to_obj (ts : TSeries) (cat : Option ℚ) : JVal :=
  .jobj ([("start", .jstr (ts.index.headD "")),
          ("target", .jarr (ts.values.map .jnum))] ++
         (match cat with
          | some c => [("cat", .jnum c)]
          | none => []))

def series_to_jsonline (ts : TSeries) (cat : Option ℚ) : String :=
  jdump (series_to_obj ts cat)

/-- The training-file writing loop: for each series, its json line followed by
a newline, concatenated in order. -/
def writeJsonLinesFile (tss : List TSeries) : String :=
  String.join (tss.map (fun ts => series_to_jsonline ts none ++ "\n"))

/-- Field lookup in a JSON object (first binding wins, as in the built dicts,
whose keys are distinct). -/
def jlookup (v : JVal) (key : String) : Option JVal :=
  match v with
  | .jobj fields => (fields.find? (fun kv => kv.1 == key)).map Prod.snd
  | _ => none

theorem intercalate_go_append (s x : String) :
    ∀ (l : List String) (y : String),
      String.intercalate.go (x ++ y) s l = x ++ String.intercalate.go y s l := by
  intro l
  induction l with
  | nil => intro y; rfl
  | cons a as ih =>
      intro y
      show String.intercalate.go (x ++ y ++ s ++ a) s as =
        x ++ String.intercalate.go (y ++ s ++ a) s as
      rw [String.append_assoc (x ++ y) s a, String.append_assoc y s a,
        String.append_assoc x y (s ++ a)]
      exact ih (y ++ (s ++ a))

theorem intercalate_cons_cons (s a b : String) (l : List String) :
    String.intercalate s (a :: b :: l) =
      a ++ s ++ String.intercalate s (b :: l) := by
  show String.intercalate.go (a ++ s ++ b) s l =
    a ++ s ++ String.intercalate.go b s l
  rw [String.append_assoc a s b, intercalate_go_append s a l (s ++ b),
    intercalate_go_append s s l b, ← String.append_assoc]

theorem foldl_append_shift (l : List String) :
    ∀ x y : String,
      l.foldl (fun r s => r ++ s) (x ++ y) =
        x ++ l.foldl (fun r s => r ++ s) y := by
  induction l with
  | nil => intro x y; rfl
  | cons a as ih =>
      intro x y
      show as.foldl _ (x ++ y ++ a) = x ++ as.foldl (fun r s => r ++ s) (y ++ a)
      rw [String.append_assoc, ih x (y ++ a)]

theorem string_join_cons (a : String) (l : List String) :
    String.join (a :: l) = a ++ String.join l := by
  show l.foldl _ ("" ++ a) = a ++ l.foldl _ ""
  rw [String.empty_append, ← String.append_empty a, foldl_append_shift,
    String.append_empty]

theorem join_newlines_eq_intercalate (lines : List String) :
    String.join (lines.map (· ++ "\n")) =
      String.intercalate "\n" lines ++ (if lines.isEmpty then "" else "\n") := by
  induction lines with
  | nil => rfl
  | cons a rest ih =>
      cases rest with
      | nil => rfl
      | cons b rest2 =>
          rw [show ((a :: b :: rest2).map (· ++ "\n")) =
              (a ++ "\n") :: ((b :: rest2).map (· ++ "\n")) from rfl,
            string_join_cons, ih, intercalate_cons_cons]
          simp [String.append_assoc]

theorem writeJsonLinesFile_lines (tss : List TSeries) :
    writeJsonLinesFile tss =
      String.intercalate "\n" (tss.map (fun ts => series_to_jsonline ts none))
        ++ (if tss.isEmpty then "" else "\n") := by
  unfold writeJsonLinesFile
  rw [show tss.map (fun ts => series_to_jsonline ts none ++ "\n") =
      (tss.map (fun ts => series_to_jsonline ts none)).map (· ++ "\n") by
    rw [List.map_map]; rfl]
  rw [join_newlines_eq_intercalate]
  cases tss <;> simp [List.isEmpty]

/-- **C4.** `series_to_obj ts cat` has `start` equal to the string form of the
first index of `ts`, `target` equal to the list of values of `ts`, and a `cat`
field exactly when `cat` is present; `series_to_jsonline` is exactly the JSON
serialization of that object; and the training file is that JSON line for each
series, one per line (newline-terminated lines, equivalently the lines joined
by newlines with one trailing newline when nonempty). -/
theorem series_to_obj_spec (ts : TSeries) (cat : Option ℚ)
    (h : ts.index ≠ []) :
    jlookup (series_to_obj ts cat) "start" = some (.jstr (ts.index.head h))
    ∧ jlookup (series_to_obj ts cat) "target" =
        some (.jarr (ts.values.map .jnum))
    ∧ ((jlookup (series_to_obj ts cat) "cat").isSome ↔ cat ≠ none)
    ∧ series_to_jsonline ts cat = jdump (series_to_obj ts cat)
    ∧ ∀ tss : List TSeries,
        writeJsonLinesFile tss =
          String.intercalate "\n"
              (tss.map (fun ts => series_to_jsonline ts none))
            ++ (if tss.isEmpty then "" else "\n") := by
  obtain ⟨idx, vals⟩ := ts
  cases idx with
  | nil => exact absurd rfl h
  | cons i0 irest =>
      refine ⟨rfl, rfl, ?_, rfl, writeJsonLinesFile_lines⟩
      cases cat <;> simp [jlookup, series_to_obj, List.find?]

theorem series_to_obj_spec_witness :
    (⟨["2020-01-01 00:00:00"], [3, 5]⟩ : TSeries).index ≠ []
    ∧ jlookup (series_to_obj ⟨["2020-01-01 00:00:00"], [3, 5]⟩ (some 2)) "start"
        = some (.jstr "2020-01-01 00:00:00") :=
  ⟨by decide,
   (series_to_obj_spec ⟨["2020-01-01 00:00:00"], [3, 5]⟩ (some 2)
      (by decide)).1⟩

/-! ## `error_rate` (xgboost_mnist notebook)

```python
def error_rate(predictions, labels):
    """Return the error rate and confusions."""
    correct = numpy.sum(predictions == labels)
    total = predictions.shape[0]

    error = 100.0 - (100 * float(correct) / float(total))

    confusions = numpy.zeros([10, 10], numpy.int32)
    bundled = zip(predictions, labels)
    for predicted, actual in bundled:
        confusions[int(predicted), int(actual)] += 1

    return error, confusions
```

Floats are modelled as `ℚ`; the confusion matrix as a function `ℤ → ℤ → ℕ`
(indices as `int()` of the entries), updated pointwise by the loop.
-/

/-- `confusions[p, a] += 1`. -/
def bumpCell (m : ℤ → ℤ → ℕ) (p a : ℤ) : ℤ → ℤ → ℕ :=
  fun i j => if i = p ∧ j = a then m i j + 1 else m i j

/-- The loop `for predicted, actual in bundled: confusions[int(predicted),
int(actual)] += 1`, starting from `numpy.zeros([10, 10])`. -/
def confusionsOf (bundled : List (ℚ × ℚ)) : ℤ → ℤ → ℕ :=
  bundled.foldl (fun m pa => bumpCell m (pytrunc pa.1) (pytrunc pa.2))
    (fun _ _ => 0)

/-- `error_rate predictions labels`, with `numpy.sum(predictions == labels)`
the count of positions where the two (equal-length) arrays agree. -/
def error_rate (predictions labels : List ℚ) : ℚ × (ℤ → ℤ → ℕ) :=
  let correct : ℕ := ((predictions.zip labels).countP (fun pa => pa.1 == pa.2))
  let total : ℕ := predictions.length
  (100 - (100 * (correct : ℚ) / (total : ℚ)),
   confusionsOf (predictions.zip labels))

theorem confusionsOf_foldl_count (bundled : List (ℚ × ℚ)) :
    ∀ (m : ℤ → ℤ → ℕ) (p a : ℤ),
      (bundled.foldl (fun m pa => bumpCell m (pytrunc pa.1) (pytrunc pa.2)) m)
          p a =
        m p a +
          bundled.countP (fun pa => pytrunc pa.1 == p && pytrunc pa.2 == a) := by
  induction bundled with
  | nil => intro m p a; rfl
  | cons x xs ih =>
      intro m p a
      simp only [List.foldl, List.countP_cons, ih]
      unfold bumpCell
      by_cases hp : pytrunc x.1 = p ∧ pytrunc x.2 = a
      · simp [hp.1, hp.2, Nat.add_comm, Nat.add_assoc, Nat.add_left_comm]
      · have : ¬ (p = pytrunc x.1 ∧ a = pytrunc x.2) := by
          intro hc; exact hp ⟨hc.1.symm, hc.2.symm⟩
        rw [if_neg this]
        have : (pytrunc x.1 == p && pytrunc x.2 == a) = false := by
          rcases Decidable.not_and_iff_or_not.mp hp with h1 | h2
          · simp [beq_eq_false_iff_ne.mpr h1]
          · simp [beq_eq_false_iff_ne.mpr h2]
        simp [this]

theorem sum_ite_cell (px pa : ℕ) (hpx : px < 10) (hpa : pa < 10) :
    ∑ p in Finset.range 10, ∑ a in Finset.range 10,
      (if p = px ∧ a = pa then (1 : ℕ) else 0) = 1 := by
  have inner : ∀ p, (∑ a in Finset.range 10,
      (if p = px ∧ a = pa then (1 : ℕ) else 0)) =
        if p = px then 1 else 0 := by
    intro p
    by_cases hp : p = px
    · subst hp
      simp only [true_and]
      rw [Finset.sum_ite_eq' (Finset.range 10) pa (fun _ => (1 : ℕ))]
      simp [Finset.mem_range.mpr hpa]
    · simp [hp]
  rw [Finset.sum_congr rfl (fun p _ => inner p),
    Finset.sum_ite_eq' (Finset.range 10) px (fun _ => (1 : ℕ))]
  simp [Finset.mem_range.mpr hpx]

theorem sum_count_cells (bundled : List (ℚ × ℚ))
    (hin : ∀ pa ∈ bundled,
      (0 ≤ pytrunc pa.1 ∧ pytrunc pa.1 < 10) ∧
      (0 ≤ pytrunc pa.2 ∧ pytrunc pa.2 < 10)) :
    (∑ p in Finset.range 10, ∑ a in Finset.range 10,
      bundled.countP
        (fun pa => pytrunc pa.1 == (p : ℤ) && pytrunc pa.2 == (a : ℤ))) =
      bundled.length := by
  induction bundled with
  | nil => simp
  | cons x xs ih =>
      have hx := hin x (List.mem_cons_self x xs)
      have hxs : ∀ pa ∈ xs, (0 ≤ pytrunc pa.1 ∧ pytrunc pa.1 < 10) ∧
          (0 ≤ pytrunc pa.2 ∧ pytrunc pa.2 < 10) :=
        fun pa hpa => hin pa (List.mem_cons_of_mem x hpa)
      simp only [List.countP_cons, List.length_cons, Finset.sum_add_distrib]
      rw [ih hxs]
      have hcond : ∀ p a : ℕ,
          ((pytrunc x.1 == (p : ℤ) && pytrunc x.2 == (a : ℤ)) = true) ↔
            (p = (pytrunc x.1).toNat ∧ a = (pytrunc x.2).toNat) := by
        intro p a
        rw [Bool.and_eq_true, beq_iff_eq, beq_iff_eq]
        omega
      have hrw : ∀ p a : ℕ,
          (if (pytrunc x.1 == (p : ℤ) && pytrunc x.2 == (a : ℤ)) = true
            then (1 : ℕ) else 0) =
          (if p = (pytrunc x.1).toNat ∧ a = (pytrunc x.2).toNat
            then (1 : ℕ) else 0) := by
        intro p a
        by_cases hc : p = (pytrunc x.1).toNat ∧ a = (pytrunc x.2).toNat
        · rw [if_pos hc, if_pos ((hcond p a).mpr hc)]
        · rw [if_neg hc, if_neg (fun hb => hc ((hcond p a).mp hb))]
      rw [Finset.sum_congr rfl
          (fun p _ => Finset.sum_congr rfl (fun a _ => hrw p a)),
        sum_ite_cell (pytrunc x.1).toNat (pytrunc x.2).toNat
          (by omega) (by omega)]

theorem pytrunc_natCast (k : ℕ) : pytrunc (k : ℚ) = (k : ℤ) := by
  unfold pytrunc
  rw [if_pos (Nat.cast_nonneg k)]
  exact Int.floor_natCast k

/-- **C5.** For equal-length, nonempty `predictions` and `labels` whose entries
are integers in `0..9`, `error_rate` returns the error
`100 - 100 * (#matching positions / length)` together with the confusion
matrix whose `(p, a)` cell counts the positions predicted `p` with actual
label `a`, and whose `10 × 10` cells sum to the number of positions. -/
theorem error_rate_spec (predictions labels : List ℚ)
    (hlen : predictions.length = labels.length)
    (hne : predictions ≠ [])
    (hrange : ∀ pa ∈ predictions.zip labels,
      (∃ k : ℕ, k ≤ 9 ∧ pa.1 = (k : ℚ)) ∧ (∃ k : ℕ, k ≤ 9 ∧ pa.2 = (k : ℚ))) :
    (error_rate predictions labels).1 =
      100 - 100 *
        (((predictions.zip labels).countP (fun pa => pa.1 == pa.2) : ℚ) /
          (predictions.length : ℚ))
    ∧ (∀ p a : ℕ, (error_rate predictions labels).2 p a =
        (predictions.zip labels).countP
          (fun pa => pa.1 == (p : ℚ) && pa.2 == (a : ℚ)))
    ∧ (∑ p in Finset.range 10, ∑ a in Finset.range 10,
        (error_rate predictions labels).2 p a) = predictions.length := by
  have hcell : ∀ p a : ℤ, (error_rate predictions labels).2 p a =
      (predictions.zip labels).countP
        (fun pa => pytrunc pa.1 == p && pytrunc pa.2 == a) := by
    intro p a
    show confusionsOf (predictions.zip labels) p a = _
    unfold confusionsOf
    rw [confusionsOf_foldl_count]
    exact Nat.zero_add _
  refine ⟨?_, ?_, ?_⟩
  · show (100 : ℚ) -
        100 * (((predictions.zip labels).countP (fun pa => pa.1 == pa.2) : ℚ)) /
          ((predictions.length : ℕ) : ℚ) = _
    rw [mul_div_assoc]
  · intro p a
    rw [hcell p a]
    apply List.countP_congr
    intro pa hpa
    obtain ⟨⟨k1, hk1, he1⟩, ⟨k2, hk2, he2⟩⟩ := hrange pa hpa
    rw [he1, he2, pytrunc_natCast, pytrunc_natCast]
    rw [Bool.and_eq_true, Bool.and_eq_true, beq_iff_eq, beq_iff_eq,
      beq_iff_eq, beq_iff_eq, Int.natCast_inj,
      Nat.cast_inj (R := ℚ), Int.natCast_inj, Nat.cast_inj (R := ℚ)]
  · have hin : ∀ pa ∈ predictions.zip labels,
        (0 ≤ pytrunc pa.1 ∧ pytrunc pa.1 < 10) ∧
        (0 ≤ pytrunc pa.2 ∧ pytrunc pa.2 < 10) := by
      intro pa hpa
      obtain ⟨⟨k1, hk1, he1⟩, ⟨k2, hk2, he2⟩⟩ := hrange pa hpa
      rw [he1, he2, pytrunc_natCast, pytrunc_natCast]
      omega
    have hsum : (∑ p in Finset.range 10, ∑ a in Finset.range 10,
        (error_rate predictions labels).2 p a) =
        ∑ p in Finset.range 10, ∑ a in Finset.range 10,
          (predictions.zip labels).countP
            (fun pa => pytrunc pa.1 == (p : ℤ) && pytrunc pa.2 == (a : ℤ)) :=
      Finset.sum_congr rfl (fun p _ =>
        Finset.sum_congr rfl (fun a _ => hcell p a))
    rw [hsum, sum_count_cells _ hin, List.length_zip, ← hlen, min_self]

theorem error_rate_spec_witness :
    ([(1 : ℚ), 2].length = [(1 : ℚ), 3].length)
    ∧ (∑ p in Finset.range 10, ∑ a in Finset.range 10,
        (error_rate [(1 : ℚ), 2] [(1 : ℚ), 3]).2 p a) =
      [(1 : ℚ), 2].length :=
  ⟨rfl,
   (error_rate_spec [(1 : ℚ), 2] [(1 : ℚ), 3] rfl (by simp)
      (by
        intro pa hpa
        fin_cases hpa
        · exact ⟨⟨1, by norm_num⟩, ⟨1, by norm_num⟩⟩
        · exact ⟨⟨2, by norm_num⟩, ⟨3, by norm_num⟩⟩)).2.2⟩

/-! ## `visualize_detection` (object-detection section, xgboost_mnist notebook)

```python
def visualize_detection(img_file, dets, classes=[], thresh=0.6):
        img=mpimg.imread(img_file)
        plt.imshow(img)
        height = img.shape[0]
        width = img.shape[1]
        colors = dict()
        for det in dets:
            (klass, score, x0, y0, x1, y1) = det
            if score < thresh:
                continue
            cls_id = int(klass)
            if cls_id not in colors:
                colors[cls_id] = (random.random(), random.random(), random.random())
            xmin = int(x0 * width)
            ymin = int(y0 * height)
            xmax = int(x1 * width)
            ymax = int(y1 * height)
            rect = plt.Rectangle((xmin, ymin), xmax - xmin, ymax - ymin, ...)
            plt.gca().add_patch(rect)
            class_name = str(cls_id)
            if classes and len(classes) > cls_id:
                class_name = classes[cls_id]
            plt.gca().text(xmin, ymin - 2, '...'.format(class_name, score), ...)
        plt.show()
```

The geometry is modelled exactly; the random edge colour and the text styling
carry no geometric content and are not part of the plot-action model (the
label text itself is). -/

/-- One `ssd` detection row `[id, score, x0, y0, x1, y1]`. -/
structure Detection : Type where
  klass : ℚ
  score : ℚ
  x0 : ℚ
  y0 : ℚ
  x1 : ℚ
  y1 : ℚ

/-- What the loop adds to the axes: `plt.Rectangle((xmin, ymin), w, h)` patches
(anchor corner plus extents, as matplotlib stores them) and the label texts. -/
inductive PlotAction : Type
  | rectangle (xmin ymin w h : ℤ)
  | text (x y : ℤ) (klassId : ℤ) (score : ℚ)

/-- The loop body for one detection: below-threshold rows add nothing. -/
def detStep (width height : ℕ) (thresh : ℚ) (acc : List PlotAction)
    (d : Detection) : List PlotAction :=
  if d.score < thresh then acc
  else
    let xmin := pytrunc (d.x0 * width)
    let ymin := pytrunc (d.y0 * height)
    let xmax := pytrunc (d.x1 * width)
    let ymax := pytrunc (d.y1 * height)
    acc ++ [.rectangle xmin ymin (xmax - xmin) (ymax - ymin),
            .text xmin (ymin - 2) (pytrunc d.klass) d.score]

/-- The whole loop of `visualize_detection` over `dets`. -/
def visualize_detection (dets : List Detection) (width height : ℕ)
    (thresh : ℚ) : List PlotAction :=
  dets.foldl (detStep width height thresh) []

/-- The corner pairs of a drawn rectangle: top-left `(xmin, ymin)` and
bottom-right `(xmin + w, ymin + h)`. -/
def rectCorners : PlotAction → Option ((ℤ × ℤ) × (ℤ × ℤ))
  | .rectangle xmin ymin w h => some ((xmin, ymin), (xmin + w, ymin + h))
  | .text _ _ _ _ => none

theorem visualize_foldl_append (width height : ℕ) (thresh : ℚ)
    (dets : List Detection) :
    ∀ acc : List PlotAction,
      dets.foldl (detStep width height thresh) acc =
        acc ++ dets.foldl (detStep width height thresh) [] := by
  induction dets with
  | nil => intro acc; simp
  | cons d ds ih =>
      intro acc
      rw [List.foldl_cons, List.foldl_cons,
        ih (detStep width height thresh acc d),
        ih (detStep width height thresh [] d)]
      unfold detStep
      by_cases hs : d.score < thresh
      · rw [if_pos hs, if_pos hs]
        simp
      · rw [if_neg hs, if_neg hs]
        simp

/-- **C6.** A rectangle is drawn for a detection exactly when its score is at
least the threshold, its top-left corner is `(int(x0*width), int(y0*height))`
and its bottom-right corner is `(int(x1*width), int(y1*height))`, in input
order; a detection below the threshold adds nothing to the plot. -/
theorem visualize_detection_spec (dets : List Detection) (width height : ℕ)
    (thresh : ℚ) :
    ((visualize_detection dets width height thresh).filterMap rectCorners =
      (dets.filter (fun d => thresh ≤ d.score)).map
        (fun d =>
          ((pytrunc (d.x0 * width), pytrunc (d.y0 * height)),
           (pytrunc (d.x1 * width), pytrunc (d.y1 * height)))))
    ∧ ∀ acc d, d.score < thresh → detStep width height thresh acc d = acc := by
  constructor
  · induction dets with
    | nil => rfl
    | cons d ds ih =>
        show ((d :: ds).foldl (detStep width height thresh) []).filterMap _ = _
        rw [List.foldl_cons, visualize_foldl_append]
        by_cases hs : d.score < thresh
        · rw [show detStep width height thresh [] d = [] from if_pos hs]
          rw [List.filter_cons_of_neg (by simpa using hs)]
          simpa using ih
        · rw [show detStep width height thresh [] d =
              [.rectangle (pytrunc (d.x0 * width)) (pytrunc (d.y0 * height))
                  (pytrunc (d.x1 * width) - pytrunc (d.x0 * width))
                  (pytrunc (d.y1 * height) - pytrunc (d.y0 * height)),
               .text (pytrunc (d.x0 * width)) (pytrunc (d.y0 * height) - 2)
                  (pytrunc d.klass) d.score] from if_neg hs]
          rw [List.filter_cons_of_pos (by simpa using not_lt.mp hs)]
          simp only [List.cons_append, List.nil_append, List.filterMap_cons,
            rectCorners, List.map_cons]
          rw [show visualize_detection ds width height thresh =
            ds.foldl (detStep width height thresh) [] from rfl] at ih
          rw [ih,
            show pytrunc (d.x0 * width) +
                (pytrunc (d.x1 * width) - pytrunc (d.x0 * width)) =
              pytrunc (d.x1 * width) by omega,
            show pytrunc (d.y0 * height) +
                (pytrunc (d.y1 * height) - pytrunc (d.y0 * height)) =
              pytrunc (d.y1 * height) by omega]
  · intro acc d hd
    exact if_pos hd

/-! ## Word-vector collection and `similarity`
(blazingtext_word2vec_subwords_text8 notebook)

```python
vectors = {}
...
while len(vectors) != total_words:
    ...
    vecs = json.loads(response)
    for i in vecs:
        arr = np.array(i["vector"], dtype=float)
        if np.linalg.norm(arr) == 0:
            continue
        vectors[i["word"]] = arr
    ...

def similarity(v1, v2):
    n1 = np.linalg.norm(v1)
    n2 = np.linalg.norm(v2)
    return np.dot(v1, v2) / n1 / n2
```

`np.linalg.norm(arr)` is `√(Σ xᵢ²)`; the guard `norm == 0` is embedded as
`normSq arr = 0`, which `norm_zero_iff_normSq_zero` below proves equivalent. -/

/-- One item of a word-vectors endpoint response. -/
structure WordVecItem : Type where
  word : String
  vector : List ℚ

/-- The sum of squares of a vector's entries (the square of its norm). -/
def normSq (v : List ℚ) : ℚ := (v.map (fun x => x * x)).sum

/-- Python dict assignment `vectors[word] = arr`: replace an existing binding
for the key, else append a new one. -/
def dictSet (d : List (String × List ℚ)) (k : String) (v : List ℚ) :
    List (String × List ℚ) :=
  if d.any (fun kv => kv.1 == k) then
    d.map (fun kv => if kv.1 == k then (k, v) else kv)
  else d ++ [(k, v)]

/-- The inner `for i in vecs` loop with its zero-norm `continue` guard. -/
def collectBatch (vectors : List (String × List ℚ))
    (vecs : List WordVecItem) : List (String × List ℚ) :=
  vecs.foldl
    (fun vs i =>
      if normSq i.vector = 0 then vs else dictSet vs i.word i.vector)
    vectors

/-- The `while` loop over successive batch responses, starting from the empty
`vectors = {}` dictionary. -/
def collectVectors (batches : List (List WordVecItem)) :
    List (String × List ℚ) :=
  batches.foldl collectBatch []

theorem normSq_nonneg (v : List ℚ) : 0 ≤ normSq v := by
  unfold normSq
  apply List.sum_nonneg
  intro x hx
  obtain ⟨y, _, hy⟩ := List.mem_map.mp hx
  rw [← hy]
  exact mul_self_nonneg y

theorem norm_zero_iff_normSq_zero (v : List ℚ) :
    Real.sqrt ((normSq v : ℚ) : ℝ) = 0 ↔ normSq v = 0 := by
  rw [Real.sqrt_eq_zero (by exact_mod_cast normSq_nonneg v)]
  exact_mod_cast Iff.rfl

theorem mem_dictSet_cases (d : List (String × List ℚ)) (k : String)
    (v : List ℚ) : ∀ kv ∈ dictSet d k v, kv ∈ d ∨ kv = (k, v) := by
  intro kv hkv
  unfold dictSet at hkv
  by_cases hany : d.any (fun kv => kv.1 == k)
  · rw [if_pos hany] at hkv
    obtain ⟨kv0, hkv0, heq⟩ := List.mem_map.mp hkv
    by_cases hk : kv0.1 == k
    · right; rw [if_pos hk] at heq; exact heq.symm
    · left; rw [if_neg hk] at heq; exact heq ▸ hkv0
  · rw [if_neg hany] at hkv
    rcases List.mem_append.mp hkv with h | h
    · left; exact h
    · right; simpa using h

theorem collectBatch_inv (vecs : List WordVecItem) :
    ∀ vectors : List (String × List ℚ),
      (∀ kv ∈ vectors, normSq kv.2 ≠ 0) →
      ∀ kv ∈ collectBatch vectors vecs, normSq kv.2 ≠ 0 := by
  induction vecs with
  | nil => intro vectors hv kv hkv; exact hv kv hkv
  | cons i rest ih =>
      intro vectors hv kv hkv
      unfold collectBatch at hkv
      rw [List.foldl_cons] at hkv
      refine ih _ ?_ kv hkv
      intro kv' hkv'
      by_cases hz : normSq i.vector = 0
      · rw [if_pos hz] at hkv'; exact hv kv' hkv'
      · rw [if_neg hz] at hkv'
        rcases mem_dictSet_cases vectors i.word i.vector kv' hkv' with h | h
        · exact hv kv' h
        · rw [h]; exact hz

theorem collectVectors_inv (batches : List (List WordVecItem)) :
    ∀ kv ∈ collectVectors batches, normSq kv.2 ≠ 0 := by
  unfold collectVectors
  suffices h : ∀ init : List (String × List ℚ),
      (∀ kv ∈ init, normSq kv.2 ≠ 0) →
      ∀ kv ∈ batches.foldl collectBatch init, normSq kv.2 ≠ 0 by
    exact h [] (by intro kv hkv; cases hkv)
  induction batches with
  | nil => intro init hi kv hkv; exact hi kv hkv
  | cons b bs ih =>
      intro init hi kv hkv
      rw [List.foldl_cons] at hkv
      exact ih (collectBatch init b) (collectBatch_inv b init hi) kv hkv

/-- **C7.** A word vector enters the `vectors` dictionary only if its norm is
nonzero, so for any two vectors drawn from the dictionary the divisors
`n1 = ‖v1‖` and `n2 = ‖v2‖` in `similarity`'s `np.dot(v1, v2) / n1 / n2` are
both nonzero: the computation never divides by zero. -/
theorem similarity_divisors_nonzero (batches : List (List WordVecItem))
    (w1 w2 : String) (v1 v2 : List ℚ)
    (h1 : (w1, v1) ∈ collectVectors batches)
    (h2 : (w2, v2) ∈ collectVectors batches) :
    Real.sqrt ((normSq v1 : ℚ) : ℝ) ≠ 0 ∧
    Real.sqrt ((normSq v2 : ℚ) : ℝ) ≠ 0 :=
  ⟨fun hz => collectVectors_inv batches (w1, v1) h1
      ((norm_zero_iff_normSq_zero v1).mp hz),
   fun hz => collectVectors_inv batches (w2, v2) h2
      ((norm_zero_iff_normSq_zero v2).mp hz)⟩

theorem similarity_divisors_nonzero_witness :
    ((("cat", [(1 : ℚ), 2]) ∈
        collectVectors [[⟨"cat", [1, 2]⟩, ⟨"rare", [0, 0]⟩]])
    ∧ Real.sqrt ((normSq [(1 : ℚ), 2] : ℚ) : ℝ) ≠ 0) := by
  have hval : collectVectors [[⟨"cat", [1, 2]⟩, ⟨"rare", [0, 0]⟩]] =
      [("cat", [(1 : ℚ), 2])] := by
    unfold collectVectors collectBatch dictSet
    norm_num [normSq]
  have hmem : ("cat", [(1 : ℚ), 2]) ∈
      collectVectors [[⟨"cat", [1, 2]⟩, ⟨"rare", [0, 0]⟩]] := by
    rw [hval]; exact List.mem_singleton.mpr rfl
  exact ⟨hmem,
    (similarity_divisors_nonzero _ "cat" "cat" _ _ hmem hmem).1⟩

/-! ## The two `batch_predict` implementations

xgboost_mnist:

```python
def batch_predict(data, batch_size, endpoint_name, content_type):
    items = len(data)
    arrs = []
    for offset in range(0, items, batch_size):
        arrs.extend(
            do_predict(data[offset : min(offset + batch_size, items)], ...))
        sys.stdout.write(".")
    return arrs
```

Image-classification-multilabel-lst:

```python
def batch_predict(data, batch_size, endpoint_name, content_type):
    items = len(data)
    arrs = []
    for offset in range(0, items, batch_size):
        if offset + batch_size < items:
            results = do_predict(data[offset : (offset + batch_size)], ...)
            arrs.extend(results)
        else:
            arrs.extend(do_predict(data[offset:items], ...))
        sys.stdout.write(".")
    return arrs
```
-/

/-- Python `range(0, items, step)` for `step > 0`: the multiples of `step`
below `items`, i.e. `0, step, 2*step, ...`, of which there are
`⌈items / step⌉`. -/
def pyRange (items step : ℕ) : List ℕ :=
  (List.range ((items + step - 1) / step)).map (· * step)

/-- The min-slicing `batch_predict`, abstracted over `do_predict`. -/
def batch_predict_min {α β : Type} (do_predict : List α → List β)
    (data : List α) (batch_size : ℕ) : List β :=
  (pyRange data.length batch_size).foldl
    (fun arrs offset =>
      arrs ++
        do_predict
          (pySlice data offset (min (offset + batch_size) data.length)))
    []

/-- The if/else-slicing `batch_predict`, abstracted over `do_predict`. -/
def batch_predict_ifelse {α β : Type} (do_predict : List α → List β)
    (data : List α) (batch_size : ℕ) : List β :=
  (pyRange data.length batch_size).foldl
    (fun arrs offset =>
      if offset + batch_size < data.length then
        arrs ++ do_predict (pySlice data offset (offset + batch_size))
      else arrs ++ do_predict (pySlice data offset data.length))
    []

theorem foldl_ext {α β : Type} (f g : β → α → β) (h : ∀ b a, f b a = g b a) :
    ∀ (l : List α) (init : β), l.foldl f init = l.foldl g init := by
  intro l
  induction l with
  | nil => intro init; rfl
  | cons a as ih =>
      intro init
      rw [List.foldl_cons, List.foldl_cons, h init a, ih (g init a)]

theorem slice_min_eq_slice_ifelse {α : Type} (data : List α)
    (batch_size offset : ℕ) :
    pySlice data offset (min (offset + batch_size) data.length) =
      if offset + batch_size < data.length then
        pySlice data offset (offset + batch_size)
      else pySlice data offset data.length := by
  by_cases hc : offset + batch_size < data.length
  · rw [if_pos hc, Nat.min_eq_left (Nat.le_of_lt hc)]
  · rw [if_neg hc, Nat.min_eq_right (Nat.le_of_not_lt hc)]

/-- **C8.** For every `data` and positive `batch_size`, the two
`batch_predict` variants select the identical sequence of chunks, and hence
return equal prediction lists for any common `do_predict`. -/
theorem batch_predict_equiv {α β : Type} (do_predict : List α → List β)
    (data : List α) (batch_size : ℕ) (h : 0 < batch_size) :
    ((pyRange data.length batch_size).map
        (fun offset =>
          pySlice data offset (min (offset + batch_size) data.length)) =
      (pyRange data.length batch_size).map
        (fun offset =>
          if offset + batch_size < data.length then
            pySlice data offset (offset + batch_size)
          else pySlice data offset data.length))
    ∧ batch_predict_min do_predict data batch_size =
        batch_predict_ifelse do_predict data batch_size := by
  constructor
  · exact List.map_congr_left
      (fun offset _ => slice_min_eq_slice_ifelse data batch_size offset)
  · unfold batch_predict_min batch_predict_ifelse
    apply foldl_ext
    intro arrs offset
    rw [slice_min_eq_slice_ifelse data batch_size offset]
    by_cases hc : offset + batch_size < data.length
    · rw [if_pos hc, if_pos hc]
    · rw [if_neg hc, if_neg hc]

theorem batch_predict_equiv_witness :
    (0 < 2)
    ∧ batch_predict_min (fun l => l) [1, 2, 3] 2 =
        batch_predict_ifelse (fun l => (l : List ℕ)) [1, 2, 3] 2 :=
  ⟨by decide, (batch_predict_equiv (fun l => l) [1, 2, 3] 2 (by decide)).2⟩

/-! ## `upload_to_s3` (xgboost_mnist notebook)

```python
def upload_to_s3(partition_name, partition):
    labels = [t.tolist() for t in partition[1]]
    vectors = [t.tolist() for t in partition[0]]
    num_partition = 5  # partition file into 5 parts
    partition_bound = int(len(labels) / num_partition)
    for i in range(num_partition):
        f = io.BytesIO()
        to_libsvm(
            f,
            labels[i * partition_bound : (i + 1) * partition_bound],
            vectors[i * partition_bound : (i + 1) * partition_bound],
        )
        f.seek(0)
        ...
        write_to_s3(f, bucket, key)
```
-/

/-- The label/vector slice pair serialized for partition `i`,
`i = 0, ..., 4`. -/
def uploadChunks (labels : List String) (vectors : List (List String)) :
    List (List String × List (List String)) :=
  (List.range 5).map (fun i =>
    (pySlice labels (i * (labels.length / 5)) ((i + 1) * (labels.length / 5)),
     pySlice vectors (i * (labels.length / 5))
       ((i + 1) * (labels.length / 5))))

/-- The five uploaded file contents, each produced by `to_libsvm` on a fresh
empty file. -/
def upload_to_s3 (labels : List String) (vectors : List (List String)) :
    List (List String) :=
  (uploadChunks labels vectors).map (fun lv => to_libsvm [] lv.1 lv.2)

theorem flatten_consecutive_slices {α : Type} (l : List α) (pb : ℕ) :
    ∀ k : ℕ,
      (((List.range k).map
        (fun i => pySlice l (i * pb) ((i + 1) * pb))).flatten =
          l.take (k * pb)) := by
  intro k
  induction k with
  | zero => simp [pySlice]
  | succ k ih =>
      have hchunk : pySlice l (k * pb) ((k + 1) * pb) =
          (l.drop (k * pb)).take pb := by
        rw [List.take_drop]
        unfold pySlice
        congr 2
        ring
      rw [List.range_succ, List.map_append, List.flatten_append, ih]
      simp only [List.map_cons, List.map_nil, List.flatten_cons,
        List.flatten_nil, List.append_nil]
      rw [hchunk, show (k + 1) * pb = k * pb + pb by ring, List.take_add]

theorem slice_length_of_le {α : Type} (l : List α) (a b : ℕ)
    (hb : b ≤ l.length) : (pySlice l a b).length = b - a := by
  unfold pySlice
  rw [List.length_drop, List.length_take, Nat.min_eq_left hb]

/-- **C9.** `upload_to_s3` serializes exactly the first
`5 * (len / 5)` examples: the five uploaded chunks are consecutive, each of
length `partition_bound = len / 5`, their concatenation is the first
`5 * partition_bound` labels (resp. vectors), `5 * partition_bound` is the
length minus `len mod 5`, the trailing `len mod 5` examples appear in no
uploaded file, and each uploaded file is the `to_libsvm` serialization of its
chunk. -/
theorem upload_to_s3_spec (labels : List String)
    (vectors : List (List String)) (h : vectors.length = labels.length) :
    ((uploadChunks labels vectors).map Prod.fst).flatten =
      labels.take (5 * (labels.length / 5))
    ∧ ((uploadChunks labels vectors).map Prod.snd).flatten =
      vectors.take (5 * (labels.length / 5))
    ∧ (∀ c ∈ uploadChunks labels vectors,
        c.1.length = labels.length / 5 ∧ c.2.length = labels.length / 5)
    ∧ 5 * (labels.length / 5) = labels.length - labels.length % 5
    ∧ upload_to_s3 labels vectors =
        (uploadChunks labels vectors).map (fun lv => to_libsvm [] lv.1 lv.2) := by
  refine ⟨?_, ?_, ?_, ?_, rfl⟩
  · unfold uploadChunks
    rw [List.map_map]
    rw [show ((Prod.fst ∘ fun i =>
        (pySlice labels (i * (labels.length / 5)) ((i + 1) * (labels.length / 5)),
         pySlice vectors (i * (labels.length / 5)) ((i + 1) * (labels.length / 5))))) =
      (fun i => pySlice labels (i * (labels.length / 5)) ((i + 1) * (labels.length / 5))) from rfl]
    rw [flatten_consecutive_slices labels (labels.length / 5) 5, Nat.mul_comm]
  · unfold uploadChunks
    rw [List.map_map]
    rw [show ((Prod.snd ∘ fun i =>
        (pySlice labels (i * (labels.length / 5)) ((i + 1) * (labels.length / 5)),
         pySlice vectors (i * (labels.length / 5)) ((i + 1) * (labels.length / 5))))) =
      (fun i => pySlice vectors (i * (labels.length / 5)) ((i + 1) * (labels.length / 5))) from rfl]
    rw [flatten_consecutive_slices vectors (labels.length / 5) 5, Nat.mul_comm]
  · intro c hc
    unfold uploadChunks at hc
    obtain ⟨i, hi, hc⟩ := List.mem_map.mp hc
    rw [List.mem_range] at hi
    have hmul : (i + 1) * (labels.length / 5) ≤ labels.length := by
      have h1 : (i + 1) * (labels.length / 5) ≤ 5 * (labels.length / 5) :=
        Nat.mul_le_mul_right _ (by omega)
      have h2 : 5 * (labels.length / 5) ≤ labels.length := by
        have := Nat.div_mul_le_self labels.length 5
        omega
      exact le_trans h1 h2
    rw [← hc]
    constructor
    · rw [slice_length_of_le labels _ _ hmul, Nat.succ_mul]
      omega
    · rw [slice_length_of_le vectors _ _ (h ▸ hmul), Nat.succ_mul]
      omega
  · omega

theorem upload_to_s3_spec_witness :
    (([["1"], ["2"], ["3"], ["4"], ["5"], ["6"]] : List (List String)).length =
      (["a", "b", "c", "d", "e", "f"] : List String).length)
    ∧ ((uploadChunks ["a", "b", "c", "d", "e", "f"]
          [["1"], ["2"], ["3"], ["4"], ["5"], ["6"]]).map Prod.fst).flatten =
      (["a", "b", "c", "d", "e", "f"] : List String).take
        (5 * ((["a", "b", "c", "d", "e", "f"] : List String).length / 5)) :=
  ⟨rfl,
   (upload_to_s3_spec ["a", "b", "c", "d", "e", "f"]
      [["1"], ["2"], ["3"], ["4"], ["5"], ["6"]] rfl).1⟩

/-! ## Label stripping over a deep copy (FastText hosting notebook)

```python
predictions_copy = copy.deepcopy(predictions)   # after: import copy
for output in predictions_copy:
    output['label'] = output['label'][0][9:].upper()  #__label__ has length of 9
```

Python objects live on a heap and the loop mutates the output dicts in place,
so the embedding keeps an explicit object store (`List PredObj`) with
references as indices: `predictions` is a list of references into the store,
`copy.deepcopy` clones every referenced object into fresh cells, and the loop
rewrites the cloned cells only. -/

/-- An output's `'label'` entry: the endpoint returns a list of label strings;
the rewrite replaces it by a single plain string. -/
inductive LabelVal : Type
  | strs (xs : List String)
  | str (s : String)

/-- One prediction output dict, with its `'label'` and `'prob'` entries. -/
structure PredObj : Type where
  label : LabelVal
  prob : List ℚ

/-- Placeholder object for out-of-range lookups (never hit under the validity
hypotheses). -/
def defaultPred : PredObj := ⟨.str "", []⟩

/-- `output['label'][0][9:].upper()`: take the first label of the list, drop
its first 9 characters (`'__label__'` has length 9) and upper-case the rest.
(On an already-plain string, Python's `[0]` takes the first character, whose
`[9:]` is empty.) -/
def stripLabel : LabelVal → LabelVal
  | .strs xs => .str ((xs.headD "").drop 9).toUpper
  | .str s => .str (((s.take 1).drop 9).toUpper)

/-- `copy.deepcopy(predictions)`: clone every referenced object into fresh
cells at the end of the store; the copy is the list of fresh references. -/
def deepcopyRefs (store : List PredObj) (refs : List ℕ) :
    List PredObj × List ℕ :=
  (store ++ refs.map (fun r => store.getD r defaultPred),
   (List.range refs.length).map (fun i => store.length + i))

/-- `output['label'] = stripLabel(output['label'])` at reference `r`. -/
def stripStep (st : List PredObj) (r : ℕ) : List PredObj :=
  st.set r ⟨stripLabel (st.getD r defaultPred).label,
            (st.getD r defaultPred).prob⟩

/-- The whole cell: deep copy, then the rewriting loop over the copy's
references.  Returns the final store together with the original and the
copy's reference lists. -/
def stripCell (store : List PredObj) (refs : List ℕ) :
    List PredObj × List ℕ × List ℕ :=
  let copied := deepcopyRefs store refs
  (copied.2.foldl stripStep copied.1, refs, copied.2)

theorem stripStep_length (st : List PredObj) (r : ℕ) :
    (stripStep st r).length = st.length := by
  unfold stripStep
  exact List.length_set ..

theorem foldl_stripStep_length (rs : List ℕ) :
    ∀ st : List PredObj, (rs.foldl stripStep st).length = st.length := by
  induction rs with
  | nil => intro st; rfl
  | cons r rest ih =>
      intro st
      rw [List.foldl_cons, ih (stripStep st r), stripStep_length]

theorem foldl_stripStep_not_mem (rs : List ℕ) :
    ∀ (st : List PredObj) (j : ℕ), j ∉ rs →
      (rs.foldl stripStep st)[j]? = st[j]? := by
  induction rs with
  | nil => intro st j _; rfl
  | cons r rest ih =>
      intro st j hj
      rw [List.foldl_cons,
        ih (stripStep st r) j (fun hm => hj (List.mem_cons_of_mem r hm))]
      unfold stripStep
      have hrj : r ≠ j := fun he =>
        hj (by rw [← he]; exact List.mem_cons_self r rest)
      exact List.getElem?_set_ne hrj

theorem foldl_stripStep_mem (rs : List ℕ) (hnd : rs.Nodup) :
    ∀ (st : List PredObj) (r : ℕ), r ∈ rs → r < st.length →
      (rs.foldl stripStep st)[r]? =
        some ⟨stripLabel (st.getD r defaultPred).label,
              (st.getD r defaultPred).prob⟩ := by
  induction rs with
  | nil => intro st r hr; cases hr
  | cons r0 rest ih =>
      intro st r hr hlt
      rw [List.foldl_cons]
      rcases List.mem_cons.mp hr with he | hm
      · subst he
        rw [foldl_stripStep_not_mem rest (stripStep st r)
            r (List.Nodup.not_mem hnd)]
        unfold stripStep
        exact List.getElem?_set_self hlt
      · have hne : r0 ≠ r := by
          intro he
          exact List.Nodup.not_mem hnd (he ▸ hm)
        have hst : (stripStep st r0).getD r defaultPred =
            st.getD r defaultPred := by
          unfold List.getD stripStep
          rw [List.get?_eq_getElem?, List.get?_eq_getElem?,
            List.getElem?_set_ne hne]
        rw [ih (List.Nodup.of_cons hnd) (stripStep st r0) r hm
            (by rw [stripStep_length]; exact hlt), hst]

/-- **C10.** The rewriting loop operates on the deep copy only: every original
store cell is unchanged afterwards; the `i`-th copy object carries the
stripped label of the `i`-th original object with its `prob` untouched; and
the stripping transform is exactly "first element of the label list, first 9
characters (the `'__label__'` prefix) removed, remainder upper-cased". -/
theorem strip_labels_spec (store : List PredObj) (refs : List ℕ) :
    (∀ j, j < store.length → (stripCell store refs).1[j]? = store[j]?)
    ∧ (∀ i r, refs[i]? = some r →
        (stripCell store refs).1[store.length + i]? =
          some ⟨stripLabel (store.getD r defaultPred).label,
                (store.getD r defaultPred).prob⟩)
    ∧ (∀ x xs, stripLabel (.strs (x :: xs)) = .str ((x.drop 9).toUpper)) := by
  have hstore1 : (deepcopyRefs store refs).1 =
      store ++ refs.map (fun r => store.getD r defaultPred) := rfl
  have hcopyRefs : (deepcopyRefs store refs).2 =
      (List.range refs.length).map (fun i => store.length + i) := rfl
  refine ⟨?_, ?_, fun x xs => rfl⟩
  · intro j hj
    show ((deepcopyRefs store refs).2.foldl stripStep
      (deepcopyRefs store refs).1)[j]? = _
    rw [foldl_stripStep_not_mem _ _ j ?notmem]
    case notmem =>
      rw [hcopyRefs]
      intro hmem
      obtain ⟨i, _, he⟩ := List.mem_map.mp hmem
      omega
    rw [hstore1, List.getElem?_append_left hj]
  · intro i r hir
    have hi : i < refs.length := by
      rcases Nat.lt_or_ge i refs.length with h | h
      · exact h
      · rw [List.getElem?_eq_none h] at hir; cases hir
    have hnd : ((List.range refs.length).map
        (fun i => store.length + i)).Nodup :=
      List.Nodup.map (fun a b hab => by omega) (List.nodup_range refs.length)
    have hmem : store.length + i ∈
        (List.range refs.length).map (fun i => store.length + i) :=
      List.mem_map.mpr ⟨i, List.mem_range.mpr hi, rfl⟩
    show ((deepcopyRefs store refs).2.foldl stripStep
      (deepcopyRefs store refs).1)[store.length + i]? = _
    rw [hcopyRefs]
    rw [foldl_stripStep_mem _ hnd _ _ hmem
      (by rw [hstore1, List.length_append, List.length_map]; omega)]
    have hgd : (deepcopyRefs store refs).1.getD (store.length + i)
        defaultPred = store.getD r defaultPred := by
      unfold List.getD
      rw [List.get?_eq_getElem?, hstore1,
        List.getElem?_append_right (by omega),
        show store.length + i - store.length = i by omega,
        List.getElem?_map, hir]
      rfl
    rw [hgd]

theorem strip_labels_spec_witness :
    (([0] : List ℕ)[0]? = some 0)
    ∧ (stripCell [⟨.strs ["__label__en"], []⟩] [0]).1[1 + 0]? =
        some ⟨stripLabel ((([⟨.strs ["__label__en"], []⟩] :
                List PredObj).getD 0 defaultPred).label),
              (([⟨.strs ["__label__en"], []⟩] :
                List PredObj).getD 0 defaultPred).prob⟩ :=
  ⟨rfl, (strip_labels_spec [⟨.strs ["__label__en"], []⟩] [0]).2.1 0 0 rfl⟩

/-! ## Post-polling status checks (error handling of the flows)

The low-level training-job and endpoint-creation flows in the notebooks end
in one of these cell fragments (`status` is the final job/endpoint status,
`message` the service's `FailureReason`, `arn` the endpoint ARN):

* xgboost_mnist training (after the waiter):
  `print(status); if status == "Failed": print(error); raise
  Exception("Training job failed")`
* Image-classification-multilabel-lst, image-classification training poll
  cell: the cell ends right after the poll loop — no check, no raise;
* Image-classification-multilabel-lst, seq2seq training check:
  `print(status); if status == 'Failed': print(error); raise
  Exception('Training job failed')`
* xgboost_mnist endpoint creation (after the poll loop):
  `print(arn); print(status)` — no check, no raise;
* Image-classification-multilabel-lst, image-classification endpoint
  creation (after the poll loop): `print(arn); print(status)` — no raise;
* Image-classification-multilabel-lst, seq2seq endpoint creation (after the
  waiter): `print(status); if status != 'InService': raise
  Exception('Endpoint creation failed.')`.

Each fragment is embedded as a pure handler returning what it printed and
what it raised (`none` = no exception).  These are the only `raise`
statements in the training/endpoint flows, and none of them loops back
(no retry). -/

/-- What a post-polling cell fragment did: its printed lines in order, and
the raised exception's message, if any. -/
structure FlowResult : Type where
  printed : List String
  raised : Option String

/-- A training-job status is a failure status exactly when it is `Failed`. -/
def isFailureTraining (s : String) : Prop := s = "Failed"

/-- An endpoint status is a failure status exactly when it is anything other
than `InService`. -/
def isFailureEndpoint (s : String) : Prop := s ≠ "InService"

/-- xgboost_mnist, training check after the waiter. -/
def xgbTrainingCheck (status message : String) : FlowResult :=
  if status = "Failed" then
    ⟨["Training job ended with status: " ++ status,
      "Training failed with the following error: " ++ message],
     some "Training job failed"⟩
  else ⟨["Training job ended with status: " ++ status], none⟩

/-- Image-classification-multilabel-lst, image-classification training flow:
after the poll loop the cell simply ends. -/
def mlTrainingPollAfter (_status _message : String) : FlowResult :=
  ⟨[], none⟩

/-- Image-classification-multilabel-lst, seq2seq training check. -/
def seq2seqTrainingCheck (status message : String) : FlowResult :=
  if status = "Failed" then
    ⟨[status, "Training failed with the following error: " ++ message],
     some "Training job failed"⟩
  else ⟨[status], none⟩

/-- xgboost_mnist, after the endpoint poll loop: two prints, no check. -/
def xgbEndpointAfter (arn status _message : String) : FlowResult :=
  ⟨["Arn: " ++ arn, "Status: " ++ status], none⟩

/-- Image-classification-multilabel-lst, after the image-classification
endpoint poll loop: two prints, no check. -/
def mlEndpointAfter (arn status _message : String) : FlowResult :=
  ⟨["Arn: " ++ arn, "Status: " ++ status], none⟩

/-- Image-classification-multilabel-lst, seq2seq endpoint check after the
waiter. -/
def seq2seqEndpointCheck (status _message : String) : FlowResult :=
  ⟨["Endpoint creation ended with EndpointStatus = " ++ status],
   if status ≠ "InService" then some "Endpoint creation failed." else none⟩

/-- The fragment surfaces the service's failure message: some printed line or
the exception text ends with it. -/
def carriesMessage (r : FlowResult) (m : String) : Bool :=
  r.printed.any (fun p => m.data.isSuffixOf p.data) ||
  (match r.raised with
   | some e => m.data.isSuffixOf e.data
   | none => false)

/-- A handler raises exactly on failure statuses, and on failure it carries
the service's failure message. -/
def flowChecksOnFailure (handler : String → String → FlowResult)
    (isFailure : String → Prop) : Prop :=
  ∀ status message,
    (((handler status message).raised ≠ none) ↔ isFailure status)
    ∧ (isFailure status → carriesMessage (handler status message) message = true)

/-- Claim C1 as stated: every training-job and endpoint-creation flow checks
the final status and raises, exactly on failure statuses, a generic exception
carrying the service's failure message. -/
def claimC1 : Prop :=
  flowChecksOnFailure xgbTrainingCheck isFailureTraining
  ∧ flowChecksOnFailure mlTrainingPollAfter isFailureTraining
  ∧ flowChecksOnFailure seq2seqTrainingCheck isFailureTraining
  ∧ (∀ arn, flowChecksOnFailure (xgbEndpointAfter arn) isFailureEndpoint)
  ∧ (∀ arn, flowChecksOnFailure (mlEndpointAfter arn) isFailureEndpoint)
  ∧ flowChecksOnFailure seq2seqEndpointCheck isFailureEndpoint

/-- **C1, counterexample.** The claim fails on the code: the xgboost endpoint
flow raises nothing even at the failure status `Failed`, and the seq2seq
endpoint check's exception surfaces no failure message at all. -/
theorem claimC1_counterexample :
    (xgbEndpointAfter "arn:x" "Failed" "boom").raised = none
    ∧ isFailureEndpoint "Failed"
    ∧ carriesMessage (seq2seqEndpointCheck "Failed" "boom") "boom" = false
    ∧ ¬ claimC1 := by
  have hfail : isFailureEndpoint "Failed" := by
    show ("Failed" : String) ≠ "InService"
    decide
  refine ⟨rfl, hfail, by decide, ?_⟩
  intro h
  have hiff := (h.2.2.2.1 "arn:x" "Failed" "boom").1
  exact (hiff.mpr hfail) rfl

theorem message_suffix (pre m : String) :
    m.data.isSuffixOf (pre ++ m).data = true := by
  simp

theorem carriesMessage_of_printed (r : FlowResult) (m pre : String)
    (hmem : (pre ++ m) ∈ r.printed) : carriesMessage r m = true := by
  unfold carriesMessage
  rw [Bool.or_eq_true]
  left
  rw [List.any_eq_true]
  exact ⟨pre ++ m, hmem, message_suffix pre m⟩

/-- **C1, amended.** After polling finishes, the only error handling is a
status-string check: the two training-job checking flows raise
`Exception("Training job failed")` exactly when the final status is `Failed`,
printing the service's failure message; the seq2seq endpoint flow raises
`Exception("Endpoint creation failed.")` exactly when the final status is not
`InService` (without surfacing the service's failure message); the remaining
flows (the image-classification training poll and the xgboost and
image-classification endpoint polls) perform no check and never raise; no
retry is attempted and nothing else raises. -/
theorem error_handling_flows_spec :
    (∀ status message,
      (xgbTrainingCheck status message).raised =
        (if status = "Failed" then some "Training job failed" else none)
      ∧ (((xgbTrainingCheck status message).raised ≠ none) ↔
          isFailureTraining status)
      ∧ (isFailureTraining status →
          carriesMessage (xgbTrainingCheck status message) message = true))
    ∧ (∀ status message,
      (seq2seqTrainingCheck status message).raised =
        (if status = "Failed" then some "Training job failed" else none)
      ∧ (((seq2seqTrainingCheck status message).raised ≠ none) ↔
          isFailureTraining status)
      ∧ (isFailureTraining status →
          carriesMessage (seq2seqTrainingCheck status message) message = true))
    ∧ (∀ status message,
      (seq2seqEndpointCheck status message).raised =
        (if status = "InService" then none
         else some "Endpoint creation failed.")
      ∧ (((seq2seqEndpointCheck status message).raised ≠ none) ↔
          isFailureEndpoint status))
    ∧ (∀ status message, (mlTrainingPollAfter status message).raised = none)
    ∧ (∀ arn status message,
        (xgbEndpointAfter arn status message).raised = none)
    ∧ (∀ arn status message,
        (mlEndpointAfter arn status message).raised = none) := by
  refine ⟨?_, ?_, ?_, fun _ _ => rfl, fun _ _ _ => rfl, fun _ _ _ => rfl⟩
  · intro status message
    by_cases hs : status = "Failed"
    · subst hs
      exact ⟨by simp [xgbTrainingCheck], by simp [xgbTrainingCheck,
        isFailureTraining],
        fun _ => carriesMessage_of_printed _ _
          "Training failed with the following error: "
          (by simp [xgbTrainingCheck])⟩
    · exact ⟨by simp [xgbTrainingCheck, hs],
        by simp [xgbTrainingCheck, hs, isFailureTraining],
        fun hf => absurd hf hs⟩
  · intro status message
    by_cases hs : status = "Failed"
    · subst hs
      exact ⟨by simp [seq2seqTrainingCheck], by simp [seq2seqTrainingCheck,
        isFailureTraining],
        fun _ => carriesMessage_of_printed _ _
          "Training failed with the following error: "
          (by simp [seq2seqTrainingCheck])⟩
    · exact ⟨by simp [seq2seqTrainingCheck, hs],
        by simp [seq2seqTrainingCheck, hs, isFailureTraining],
        fun hf => absurd hf hs⟩
  · intro status message
    by_cases hs : status = "InService"
    · subst hs
      exact ⟨by simp [seq2seqEndpointCheck],
        by simp [seq2seqEndpointCheck, isFailureEndpoint]⟩
    · exact ⟨by simp [seq2seqEndpointCheck, hs],
        by simp [seq2seqEndpointCheck, hs, isFailureEndpoint]⟩

theorem error_handling_flows_spec_witness :
    isFailureTraining "Failed"
    ∧ carriesMessage (xgbTrainingCheck "Failed" "boom") "boom" = true :=
  ⟨rfl, (error_handling_flows_spec.1 "Failed" "boom").2.2 rfl⟩

/-! ## The status-polling loops

The notebooks contain three status-polling loops:

* Image-classification-multilabel-lst, training:
  ```python
  status = client.describe_training_job(...)["TrainingJobStatus"]
  print(status)
  while status != "Completed" and status != "Failed":
      time.sleep(60)
      status = client.describe_training_job(...)["TrainingJobStatus"]
      print(status)
  ```
* xgboost_mnist, endpoint creation:
  ```python
  resp = sm.describe_endpoint(...); status = resp["EndpointStatus"]
  print(f"Status: {status}")
  while status == "Creating":
      time.sleep(60)
      resp = sm.describe_endpoint(...); status = resp["EndpointStatus"]
      print(f"Status: {status}")
  ```
* Image-classification-multilabel-lst, endpoint creation:
  ```python
  resp = client.describe_endpoint(...); status = resp["EndpointStatus"]
  while status == "Creating":
      print(f"Status: {status}")
      time.sleep(60)
      resp = client.describe_endpoint(...); status = resp["EndpointStatus"]
  ```

Each loop is embedded against a status oracle `f : ℕ → String` (`f n` is the
status returned by the `(n+1)`-st describe call) with a fuel bound, emitting
its observable effects (`query` for a describe call, `sleep`, `print`); the
loop state is the status (with the response it was read from) and nothing
else is written. -/

/-- Observable effects of a polling loop. -/
inductive PollEvent : Type
  | query
  | sleep (seconds : ℕ)
  | print (s : String)
deriving DecidableEq

/-- A training-job status is terminal when it is `Completed` or `Failed`
(the loop condition `status != "Completed" and status != "Failed"`,
negated). -/
def trainTerminal (s : String) : Bool := s == "Completed" || s == "Failed"

/-- An endpoint status is terminal when it is no longer `Creating` (the loop
condition `status == "Creating"`, negated). -/
def endpointTerminal (s : String) : Bool := !(s == "Creating")

/-- One iteration of the training poll loop: sleep 60, query, print the new
status. -/
def trainIter (_cur next : String) : List PollEvent :=
  [.sleep 60, .query, .print next]

/-- One iteration of the xgboost endpoint poll loop: sleep 60, query, print
the new status. -/
def xgbEndpointIter (_cur next : String) : List PollEvent :=
  [.sleep 60, .query, .print ("Status: " ++ next)]

/-- One iteration of the image-classification endpoint poll loop: print the
current status, sleep 60, query. -/
def mlEndpointIter (cur _next : String) : List PollEvent :=
  [.print ("Status: " ++ cur), .sleep 60, .query]

/-- The fuelled `while ¬terminal(status)` loop body, starting with the status
`f n` already in hand: returns the iteration trace and the index of the final
status, or `none` if the fuel runs out before a terminal status. -/
def pollAux (terminal : String → Bool)
    (iter : String → String → List PollEvent) (f : ℕ → String) :
    ℕ → ℕ → Option (List PollEvent × ℕ)
  | 0, n => if terminal (f n) then some ([], n) else none
  | fuel + 1, n =>
      if terminal (f n) then some ([], n)
      else
        match pollAux terminal iter f fuel (n + 1) with
        | some (evs, m) => some (iter (f n) (f (n + 1)) ++ evs, m)
        | none => none

/-- The training poll cell: initial query and print, then the loop. -/
def trainPoll (f : ℕ → String) (fuel : ℕ) : Option (List PollEvent × ℕ) :=
  (pollAux trainTerminal trainIter f fuel 0).map
    (fun r => ([.query, .print (f 0)] ++ r.1, r.2))

/-- The xgboost endpoint poll cell: initial query and print, then the loop. -/
def xgbEndpointPoll (f : ℕ → String) (fuel : ℕ) :
    Option (List PollEvent × ℕ) :=
  (pollAux endpointTerminal xgbEndpointIter f fuel 0).map
    (fun r => ([.query, .print ("Status: " ++ f 0)] ++ r.1, r.2))

/-- The image-classification endpoint poll cell: initial query (no print),
then the loop. -/
def mlEndpointPoll (f : ℕ → String) (fuel : ℕ) :
    Option (List PollEvent × ℕ) :=
  (pollAux endpointTerminal mlEndpointIter f fuel 0).map
    (fun r => ([.query] ++ r.1, r.2))

/-- Spec-side: the trace of `j` loop iterations starting at status index
`start`: one `iter` block per non-terminal status, in order. -/
def iterTrace (iter : String → String → List PollEvent) (f : ℕ → String) :
    ℕ → ℕ → List PollEvent
  | _, 0 => []
  | start, j + 1 =>
      iter (f start) (f (start + 1)) ++ iterTrace iter f (start + 1) j

def isSleep : PollEvent → Bool
  | .sleep _ => true
  | _ => false

def isQuery : PollEvent → Bool
  | .query => true
  | _ => false

theorem pollAux_spec (terminal : String → Bool)
    (iter : String → String → List PollEvent) (f : ℕ → String) :
    ∀ j start fuel : ℕ, j ≤ fuel →
      (∀ k, k < j → terminal (f (start + k)) = false) →
      terminal (f (start + j)) = true →
      pollAux terminal iter f fuel start =
        some (iterTrace iter f start j, start + j) := by
  intro j
  induction j with
  | zero =>
      intro start fuel _ _ hterm
      rw [Nat.add_zero] at hterm ⊢
      cases fuel with
      | zero => unfold pollAux; rw [if_pos hterm]; rfl
      | succ fuel => unfold pollAux; rw [if_pos hterm]; rfl
  | succ j ih =>
      intro start fuel hle hlt hterm
      cases fuel with
      | zero => exact absurd hle (by omega)
      | succ fuel =>
          have h0 : terminal (f start) = false := by
            have h := hlt 0 (Nat.succ_pos j)
            simpa using h
          have hih := ih (start + 1) fuel (by omega)
            (fun k hk => by
              have h := hlt (k + 1) (by omega)
              rwa [show start + (k + 1) = start + 1 + k from by omega] at h)
            (by
              have h := hterm
              rwa [show start + (j + 1) = start + 1 + j from by omega] at h)
          unfold pollAux
          rw [if_neg (by simp [h0]), hih,
            show start + 1 + j = start + (j + 1) from by omega]
          rfl

theorem iterTrace_filter_sleep
    (iter : String → String → List PollEvent) (f : ℕ → String)
    (hiter : ∀ c n, (iter c n).filter isSleep = [.sleep 60]) :
    ∀ j start, (iterTrace iter f start j).filter isSleep =
      List.replicate j (.sleep 60) := by
  intro j
  induction j with
  | zero => intro start; rfl
  | succ j ih =>
      intro start
      show ((iter (f start) (f (start + 1)) ++
        iterTrace iter f (start + 1) j).filter isSleep) = _
      rw [List.filter_append, hiter, ih (start + 1), List.replicate_succ]
      rfl

theorem iterTrace_count_query
    (iter : String → String → List PollEvent) (f : ℕ → String)
    (hiter : ∀ c n, (iter c n).countP isQuery = 1) :
    ∀ j start, (iterTrace iter f start j).countP isQuery = j := by
  intro j
  induction j with
  | zero => intro start; rfl
  | succ j ih =>
      intro start
      show ((iter (f start) (f (start + 1)) ++
        iterTrace iter f (start + 1) j).countP isQuery) = _
      rw [List.countP_append, hiter, ih (start + 1)]
      omega

theorem iterTrace_events
    (iter : String → String → List PollEvent) (f : ℕ → String)
    (hiter : ∀ c n e, e ∈ iter c n →
      e = .query ∨ e = .sleep 60 ∨ ∃ s, e = .print s) :
    ∀ j start e, e ∈ iterTrace iter f start j →
      e = .query ∨ e = .sleep 60 ∨ ∃ s, e = .print s := by
  intro j
  induction j with
  | zero => intro start e he; cases he
  | succ j ih =>
      intro start e he
      rcases List.mem_append.mp he with h | h
      · exact hiter (f start) (f (start + 1)) e h
      · exact ih (start + 1) e h

/-- **C2.** Every status-polling loop, run against a status oracle `f` with
enough fuel: exits exactly at the first terminal status (training:
`Completed`/`Failed`; endpoint: anything but `Creating`), its trace is the
initial query followed by one iteration block per non-terminal status, every
sleep in the trace is exactly `sleep 60` with one sleep between consecutive
queries (`n` sleeps, `n + 1` queries for `n` iterations), and the trace
contains only query, sleep-60 and print events — no other effect. -/
theorem polling_loops_spec (f : ℕ → String) (fuel : ℕ)
    (htrain : ∃ n, trainTerminal (f n) = true)
    (hep : ∃ n, endpointTerminal (f n) = true)
    (hfuelT : Nat.find htrain ≤ fuel) (hfuelE : Nat.find hep ≤ fuel) :
    (trainPoll f fuel =
      some ([.query, .print (f 0)] ++
          iterTrace trainIter f 0 (Nat.find htrain), Nat.find htrain))
    ∧ (∀ k, k < Nat.find htrain → trainTerminal (f k) = false)
    ∧ trainTerminal (f (Nat.find htrain)) = true
    ∧ (([PollEvent.query, .print (f 0)] ++
        iterTrace trainIter f 0 (Nat.find htrain)).filter isSleep =
        List.replicate (Nat.find htrain) (.sleep 60))
    ∧ (([PollEvent.query, .print (f 0)] ++
        iterTrace trainIter f 0 (Nat.find htrain)).countP isQuery =
        Nat.find htrain + 1)
    ∧ (∀ e ∈ [PollEvent.query, .print (f 0)] ++
          iterTrace trainIter f 0 (Nat.find htrain),
        e = .query ∨ e = .sleep 60 ∨ ∃ s, e = .print s)
    ∧ (xgbEndpointPoll f fuel =
      some ([.query, .print ("Status: " ++ f 0)] ++
          iterTrace xgbEndpointIter f 0 (Nat.find hep), Nat.find hep))
    ∧ (mlEndpointPoll f fuel =
      some ([.query] ++
          iterTrace mlEndpointIter f 0 (Nat.find hep), Nat.find hep))
    ∧ (∀ k, k < Nat.find hep → endpointTerminal (f k) = false)
    ∧ endpointTerminal (f (Nat.find hep)) = true
    ∧ (([PollEvent.query, .print ("Status: " ++ f 0)] ++
        iterTrace xgbEndpointIter f 0 (Nat.find hep)).filter isSleep =
        List.replicate (Nat.find hep) (.sleep 60))
    ∧ (([PollEvent.query] ++
        iterTrace mlEndpointIter f 0 (Nat.find hep)).filter isSleep =
        List.replicate (Nat.find hep) (.sleep 60))
    ∧ (([PollEvent.query, .print ("Status: " ++ f 0)] ++
        iterTrace xgbEndpointIter f 0 (Nat.find hep)).countP isQuery =
        Nat.find hep + 1)
    ∧ (([PollEvent.query] ++
        iterTrace mlEndpointIter f 0 (Nat.find hep)).countP isQuery =
        Nat.find hep + 1)
    ∧ (∀ e ∈ [PollEvent.query, .print ("Status: " ++ f 0)] ++
          iterTrace xgbEndpointIter f 0 (Nat.find hep),
        e = .query ∨ e = .sleep 60 ∨ ∃ s, e = .print s)
    ∧ (∀ e ∈ [PollEvent.query] ++
          iterTrace mlEndpointIter f 0 (Nat.find hep),
        e = .query ∨ e = .sleep 60 ∨ ∃ s, e = .print s) := by
  have hTf : trainTerminal (f (Nat.find htrain)) = true := Nat.find_spec htrain
  have hTmin : ∀ k, k < Nat.find htrain → trainTerminal (f k) = false := by
    intro k hk
    have h := Nat.find_min htrain hk
    simpa using h
  have hEf : endpointTerminal (f (Nat.find hep)) = true := Nat.find_spec hep
  have hEmin : ∀ k, k < Nat.find hep → endpointTerminal (f k) = false := by
    intro k hk
    have h := Nat.find_min hep hk
    simpa using h
  have hTloop := pollAux_spec trainTerminal trainIter f (Nat.find htrain)
    0 fuel hfuelT
    (fun k hk => by rw [Nat.zero_add]; exact hTmin k hk)
    (by rw [Nat.zero_add]; exact hTf)
  have hXloop := pollAux_spec endpointTerminal xgbEndpointIter f
    (Nat.find hep) 0 fuel hfuelE
    (fun k hk => by rw [Nat.zero_add]; exact hEmin k hk)
    (by rw [Nat.zero_add]; exact hEf)
  have hMloop := pollAux_spec endpointTerminal mlEndpointIter f
    (Nat.find hep) 0 fuel hfuelE
    (fun k hk => by rw [Nat.zero_add]; exact hEmin k hk)
    (by rw [Nat.zero_add]; exact hEf)
  have htrainEv : ∀ c n e, e ∈ trainIter c n →
      e = PollEvent.query ∨ e = .sleep 60 ∨ ∃ s, e = .print s := by
    intro c n e he
    simp only [trainIter, List.mem_cons, List.not_mem_nil, or_false] at he
    rcases he with h | h | h
    exacts [Or.inr (Or.inl h), Or.inl h, Or.inr (Or.inr ⟨n, h⟩)]
  have hxgbEv : ∀ c n e, e ∈ xgbEndpointIter c n →
      e = PollEvent.query ∨ e = .sleep 60 ∨ ∃ s, e = .print s := by
    intro c n e he
    simp only [xgbEndpointIter, List.mem_cons, List.not_mem_nil,
      or_false] at he
    rcases he with h | h | h
    exacts [Or.inr (Or.inl h), Or.inl h,
      Or.inr (Or.inr ⟨"Status: " ++ n, h⟩)]
  have hmlEv : ∀ c n e, e ∈ mlEndpointIter c n →
      e = PollEvent.query ∨ e = .sleep 60 ∨ ∃ s, e = .print s := by
    intro c n e he
    simp only [mlEndpointIter, List.mem_cons, List.not_mem_nil,
      or_false] at he
    rcases he with h | h | h
    exacts [Or.inr (Or.inr ⟨"Status: " ++ c, h⟩), Or.inr (Or.inl h),
      Or.inl h]
  refine ⟨?_, hTmin, hTf, ?_, ?_, ?_, ?_, ?_, hEmin, hEf, ?_, ?_, ?_, ?_,
    ?_, ?_⟩
  · unfold trainPoll
    rw [hTloop, Nat.zero_add]
    rfl
  · rw [List.filter_append,
      iterTrace_filter_sleep trainIter f (fun c n => rfl)]
    rfl
  · rw [List.countP_append,
      iterTrace_count_query trainIter f (fun c n => rfl),
      show ([PollEvent.query, .print (f 0)]).countP isQuery = 1 from rfl]
    omega
  · intro e he
    rcases List.mem_append.mp he with h | h
    · simp only [List.mem_cons, List.not_mem_nil, or_false] at h
      rcases h with h | h
      exacts [Or.inl h, Or.inr (Or.inr ⟨f 0, h⟩)]
    · exact iterTrace_events trainIter f htrainEv (Nat.find htrain) 0 e h
  · unfold xgbEndpointPoll
    rw [hXloop, Nat.zero_add]
    rfl
  · unfold mlEndpointPoll
    rw [hMloop, Nat.zero_add]
    rfl
  · rw [List.filter_append,
      iterTrace_filter_sleep xgbEndpointIter f (fun c n => rfl)]
    rfl
  · rw [List.filter_append,
      iterTrace_filter_sleep mlEndpointIter f (fun c n => rfl)]
    rfl
  · rw [List.countP_append,
      iterTrace_count_query xgbEndpointIter f (fun c n => rfl),
      show ([PollEvent.query,
        .print ("Status: " ++ f 0)]).countP isQuery = 1 from rfl]
    omega
  · rw [List.countP_append,
      iterTrace_count_query mlEndpointIter f (fun c n => rfl),
      show ([PollEvent.query]).countP isQuery = 1 from rfl]
    omega
  · intro e he
    rcases List.mem_append.mp he with h | h
    · simp only [List.mem_cons, List.not_mem_nil, or_false] at h
      rcases h with h | h
      exacts [Or.inl h, Or.inr (Or.inr ⟨"Status: " ++ f 0, h⟩)]
    · exact iterTrace_events xgbEndpointIter f hxgbEv (Nat.find hep) 0 e h
  · intro e he
    rcases List.mem_append.mp he with h | h
    · simp only [List.mem_cons, List.not_mem_nil, or_false] at h
      exact Or.inl h
    · exact iterTrace_events mlEndpointIter f hmlEv (Nat.find hep) 0 e h

theorem polling_loops_spec_witness :
    (∃ n, trainTerminal
      ((fun n => if n = 0 then "Creating" else "Completed") n) = true)
    ∧ (trainPoll (fun n => if n = 0 then "Creating" else "Completed")
        1).isSome = true := by
  have htrain : ∃ n, trainTerminal
      ((fun n => if n = 0 then "Creating" else "Completed") n) = true :=
    ⟨1, by decide⟩
  have hep : ∃ n, endpointTerminal
      ((fun n => if n = 0 then "Creating" else "Completed") n) = true :=
    ⟨1, by decide⟩
  have h := polling_loops_spec
    (fun n => if n = 0 then "Creating" else "Completed") 1 htrain hep
    (Nat.find_le (by decide)) (Nat.find_le (by decide))
  exact ⟨htrain, by rw [h.1]; rfl⟩

theorem visualize_detection_spec_witness :
    ((⟨0, (1 : ℚ)/2, 0, 0, 1, 1⟩ : Detection).score < (3 : ℚ)/4)
    ∧ detStep 5 5 ((3 : ℚ)/4) [] ⟨0, (1 : ℚ)/2, 0, 0, 1, 1⟩ = [] :=
  ⟨by norm_num,
   (visualize_detection_spec [] 5 5 ((3 : ℚ)/4)).2 []
     ⟨0, (1 : ℚ)/2, 0, 0, 1, 1⟩ (by norm_num)⟩
